import Mathlib

/- Formal model of the pnt printf-style formatting engine (include/pnt.hpp):
a shallow embedding of its directive parser, flag normalizer, argument
dispatcher and numeric rendering core, followed by theorems about their
behaviour. Machine integers are modelled as mathematical integers with
explicit two's-complement range side conditions; the C++ unsigned-int
arithmetic of the renderer is modelled with explicit reductions mod 2^32. -/

namespace Pnt

/-- Error taxonomy of the formatter (class FormatError). -/
inductive FormatError where
  | InvalidFormatter
  | TooFewArguments
  | TooManyArguments
  | IncompatibleType
  | NotImplemented
deriving DecidableEq

instance instDecEqExcept {ε α : Type} [DecidableEq ε] [DecidableEq α] :
    DecidableEq (Except ε α)
  | .ok a, .ok b => decidable_of_iff (a = b) (by simp)
  | .error a, .error b => decidable_of_iff (a = b) (by simp)
  | .ok _, .error _ => isFalse (fun h => Except.noConfusion h)
  | .error _, .ok _ => isFalse (fun h => Except.noConfusion h)

/-- The value 2^32: the modulus of the C++ type unsigned int, in which the
position, width, precision and fill quantities of the formatter live. -/
def U32 : Nat := 4294967296

/-- FormatterItem::POSITION_NONE, the unsigned value (unsigned int)(-1). -/
def POSITION_NONE : Nat := U32 - 1

/-- FormatterItem::WIDTH_EMPTY, the unsigned value (unsigned int)(-1). -/
def WIDTH_EMPTY : Nat := U32 - 1

/-- FormatterItem::WIDTH_ARG, the unsigned value (unsigned int)(-2). -/
def WIDTH_ARG : Nat := U32 - 2

/-- Subtraction of b from a in C++ unsigned int arithmetic (mod 2^32). -/
def sub32 (a b : Nat) : Nat := (a % U32 + U32 - b % U32) % U32

/-- Reinterpretation of an unsigned quantity as a C++ int
(static_cast to a signed 32-bit value). -/
def i32 (x : Nat) : Int :=
  if x % U32 < 2147483648 then (x % U32 : Nat) else ((x % U32 : Nat) : Int) - (U32 : Int)

/-- The five formatter flags (bitmask flags of FormatterItem, one Bool per bit). -/
structure Flags where
  leftJustify : Bool := false
  showSign : Bool := false
  explicitBase : Bool := false
  fillZero : Bool := false
  addSpace : Bool := false
deriving DecidableEq

/-- One parsed percent-directive (struct FormatterItem). The position, width
and precision fields keep the C++ unsigned-int encoding, in which the
sentinels POSITION_NONE, WIDTH_EMPTY and WIDTH_ARG are large values. -/
structure FormatterItem where
  position : Nat := POSITION_NONE
  flags : Flags := {}
  width : Nat := WIDTH_EMPTY
  precision : Nat := WIDTH_EMPTY
  formatChar : Char := 's'
deriving DecidableEq

/-- FormatterItem::fixFlags, the flag normalizer run after every parse. -/
def fixFlags (f : FormatterItem) : FormatterItem :=
  let fl := f.flags
  let fl :=
    if f.formatChar ≠ 'd' ∧ f.formatChar ≠ 'b' ∧ f.formatChar ≠ 's' then
      { fl with showSign := false, addSpace := false }
    else
      { fl with explicitBase := false }
  let fl := if fl.showSign then { fl with addSpace := false } else fl
  let fl := if fl.leftJustify then { fl with fillZero := false } else fl
  { f with flags := fl }

/-- Digit test of the parser (the comparisons c >= '0' && c <= '9'). -/
def isDig (c : Char) : Bool := decide ('0' ≤ c ∧ c ≤ '9')

/-- Head-of-input digit test: StringFormatterItem::findIntegerEnd leaves the
iterator unmoved exactly when the first character is not a digit. -/
def headIsDig : List Char → Bool
  | c :: _ => isDig c
  | [] => false

/-- The remainder of the input past its leading digit run
(StringFormatterItem::findIntegerEnd). -/
def dropDigits : List Char → List Char
  | c :: r => if isDig c then dropDigits r else c :: r
  | [] => []

/-- StringFormatterItem::parseInt: reads the leading digit run into an
unsigned int accumulator (overflow wraps mod 2^32). -/
def parseInt : List Char → Nat → Nat
  | c :: r, acc => if isDig c then parseInt r ((acc * 10 + (c.toNat - '0'.toNat)) % U32) else acc
  | [], acc => acc

/-- StringFormatterItem::handlePosition: an integer followed by a dollar sign
yields an explicit position; otherwise nothing is consumed. -/
def handlePosition (l : List Char) : Nat × List Char :=
  let rest := dropDigits l
  if headIsDig l then
    if rest.head? = some '$' then (parseInt l 0, rest.tail) else (POSITION_NONE, l)
  else (POSITION_NONE, l)

/-- StringFormatterItem::handleFlags: consumes flag characters, accumulating
bits into the flag set (which the caller initialises to zero). -/
def handleFlags : List Char → Flags → Flags × List Char
  | '-' :: r, fl => handleFlags r { fl with leftJustify := true }
  | '+' :: r, fl => handleFlags r { fl with showSign := true }
  | '#' :: r, fl => handleFlags r { fl with explicitBase := true }
  | '0' :: r, fl => handleFlags r { fl with fillZero := true }
  | ' ' :: r, fl => handleFlags r { fl with addSpace := true }
  | l, fl => (fl, l)

/-- StringFormatterItem::handleWidth. -/
def handleWidth (l : List Char) : Nat × List Char :=
  match l with
  | '*' :: r => (WIDTH_ARG, r)
  | _ => if headIsDig l then (parseInt l 0, dropDigits l) else (WIDTH_EMPTY, l)

/-- StringFormatterItem::handlePrecision. -/
def handlePrecision (l : List Char) : Nat × List Char :=
  match l with
  | '.' :: r =>
    match r with
    | '*' :: r2 => (WIDTH_ARG, r2)
    | _ => if headIsDig r then (parseInt r 0, dropDigits r) else (0, r)
  | _ => (WIDTH_EMPTY, l)

/-- StringFormatterItem::handleFormatChar: accepts exactly the recognized
conversion characters, anything else signals InvalidFormatter. -/
def handleFormatChar (l : List Char) : Except FormatError (Char × List Char) :=
  match l with
  | c :: r =>
    if c = 's' ∨ c = 'c' ∨ c = 'b' ∨ c = 'd' ∨ c = 'o' ∨ c = 'x' ∨ c = 'X' ∨ c = 'p' ∨
        c = 'e' ∨ c = 'E' ∨ c = 'f' ∨ c = 'F' ∨ c = 'g' ∨ c = 'G' ∨ c = 'a' ∨ c = 'A' then
      .ok (c, r)
    else .error .InvalidFormatter
  | [] => .error .InvalidFormatter

/-- StringFormatterItem::handleFormatter: position, flags, width, precision,
conversion character in order, then the flag normalizer unconditionally. -/
def handleFormatter (l : List Char) : Except FormatError (FormatterItem × List Char) :=
  let pr := handlePosition l
  let fr := handleFlags pr.2 {}
  let wr := handleWidth fr.2
  let cr := handlePrecision wr.2
  match handleFormatChar cr.2 with
  | .ok (c, l5) =>
    .ok (fixFlags { position := pr.1, flags := fr.1, width := wr.1,
                    precision := cr.1, formatChar := c }, l5)
  | .error e => .error e

/-- A machine integer argument: bit width, signedness and mathematical value.
The C++ template parameter T of the numeric core is a machine integral type;
range side conditions appear as hypotheses of the theorems. -/
structure MachInt where
  bits : Nat
  signed : Bool
  val : Int
deriving DecidableEq

/-- The _Formatter::isNegative overload pair: negative only for signed types. -/
def isNegative (m : MachInt) : Bool := m.signed && decide (m.val < 0)

/-- The std::make_unsigned cast performed by Formatter::printUnsigned:
two's-complement reinterpretation into [0, 2^bits). -/
def toUnsigned (m : MachInt) : MachInt :=
  { m with signed := false, val := m.val % ((2 : Int) ^ m.bits) }

/-- The heterogeneous argument categories the dispatcher distinguishes. -/
inductive Value where
  | bool (b : Bool)
  | ch (c : Char)
  | str (s : List Char)
  | int (m : MachInt)
  | ptr (a : Nat)
  | float
  | other

/-- Digit-to-character conversion of the numeric core: digits above 9 use
letters starting at a or A (when the conversion character is X). -/
def digitChar (upper : Bool) (d : Int) : Char :=
  if 10 ≤ d then Char.ofNat ((if upper then 'A' else 'a').toNat + (d - 10).toNat)
  else Char.ofNat ('0'.toNat + d.toNat)

/-- The digit-extraction loop of Formatter::printIntegral (the char_type*
overload): repeated tmod and tdiv (C++ truncated division); a negative
remainder is negated together with the remaining value, so the whole value is
never negated up front. The fuel argument models the 64-entry digit buffer
the source writes into back to front; digits are prepended, so the
most-significant digit ends up first. -/
def extractDigits (base : Int) (upper : Bool) : Nat → Int → List Char → List Char
  | 0, _, acc => acc
  | fuel + 1, v, acc =>
    if v = 0 then acc
    else
      let digit := v.tmod base
      let v2 := v.tdiv base
      if digit < 0 then extractDigits base upper fuel (-v2) (digitChar upper (-digit) :: acc)
      else extractDigits base upper fuel v2 (digitChar upper digit :: acc)

/-- Digit extraction with the capacity of the 64-character buffer of
Formatter::printIntegral. -/
def digits64 (base : Int) (upper : Bool) (v : Int) : List Char :=
  extractDigits base upper 64 v []

/-- Negation guarded by representability in a signed two's-complement type of
the given bit width: the step the digit loop performs as value = -value. The
negated per-step remainder is at most base - 1 in magnitude and always
representable, so only the negation of the remaining value needs a guard. -/
def negChk (bits : Nat) (x : Int) : Option Int :=
  if -((2 : Int) ^ (bits - 1)) ≤ -x ∧ -x < (2 : Int) ^ (bits - 1) then some (-x) else none

/-- The digit-extraction loop instrumented with the overflow guard: every
negation of the remaining value must stay representable in the signed type of
the argument. Used to state that the source loop never overflows. -/
def extractDigitsChk (bits : Nat) (base : Int) (upper : Bool) :
    Nat → Int → List Char → Option (List Char)
  | 0, _, acc => some acc
  | fuel + 1, v, acc =>
    if v = 0 then some acc
    else
      let digit := v.tmod base
      let v2 := v.tdiv base
      if digit < 0 then
        match negChk bits v2 with
        | some v3 => extractDigitsChk bits base upper fuel v3 (digitChar upper (-digit) :: acc)
        | none => none
      else extractDigitsChk bits base upper fuel v2 (digitChar upper digit :: acc)

/-- Parsing a digit string back into a number (most-significant first): the
mathematical reading used to state correctness of the digit loop. -/
def digitsVal (l : List Char) : Nat :=
  l.foldl (fun a c => a * 10 + (c.toNat - '0'.toNat)) 0

/-- The sign-or-base-extra sizing step of Formatter::printIntegral: one extra
character for a sign or space, else the base marker sizes, with the 0x pair
reserved only for nonzero values. -/
def signOrBaseExtra (fmt : FormatterItem) (m : MachInt) : Nat :=
  if (isNegative m && decide (fmt.formatChar = 'd')) || fmt.flags.showSign ||
      fmt.flags.addSpace then 1
  else if fmt.flags.explicitBase then
    if fmt.formatChar = 'x' ∨ fmt.formatChar = 'X' then (if m.val ≠ 0 then 2 else 0)
    else if fmt.formatChar = 'o' then 1
    else 0
  else 0

/-- The sign-or-base emission step of Formatter::printIntegral: explicit base
markers come first when the flag is set, else minus for a negative value,
else plus for show-sign, else a space for add-space. Note that the minus sign
is emitted for every negative value of a signed type, with no check of the
conversion character. -/
def signOrBase (fmt : FormatterItem) (m : MachInt) : List Char :=
  if fmt.flags.explicitBase then
    if fmt.formatChar = 'x' then (if m.val ≠ 0 then ['0', 'x'] else [])
    else if fmt.formatChar = 'X' then (if m.val ≠ 0 then ['0', 'X'] else [])
    else if fmt.formatChar = 'o' then ['0']
    else []
  else if isNegative m then ['-']
  else if fmt.flags.showSign then ['+']
  else if fmt.flags.addSpace then [' ']
  else []

/-- Formatter::printIntegral (the composing overload): digit extraction,
zero-fill floor from the precision, sign and base sizing, width fill, and
emission in the order fill spaces, sign or base marker, zeros, digits,
trailing fill. The casts to int in the fill computation of the source are
modelled by i32, and the unsigned subtractions by sub32. -/
def printIntegral (base : Int) (fmt : FormatterItem) (m : MachInt) :
    Except FormatError (List Char) :=
  let digits := digits64 base (fmt.formatChar == 'X') m.val
  let numsize := digits.length
  if fmt.precision = WIDTH_ARG then .error .NotImplemented
  else
    let zf0 := if fmt.precision = WIDTH_EMPTY then 1 else fmt.precision
    let zerofill := if numsize < zf0 then zf0 - numsize else 0
    let size := numsize + signOrBaseExtra fmt m
    if fmt.width = WIDTH_ARG then .error .NotImplemented
    else
      let fill0 := if fmt.width = WIDTH_EMPTY then 0 else fmt.width
      let fill :=
        if 0 ≤ i32 fill0 - i32 size - i32 zerofill then sub32 (sub32 fill0 size) zerofill
        else 0
      let zerofill2 := if fmt.flags.fillZero then (zerofill + fill) % U32 else zerofill
      let pre :=
        if !fmt.flags.fillZero && !fmt.flags.leftJustify then List.replicate fill ' '
        else []
      let post := if fmt.flags.leftJustify then List.replicate fill ' ' else []
      .ok (pre ++ signOrBase fmt m ++ List.replicate zerofill2 '0' ++ digits ++ post)

/-- Formatter::printPreFill: the pre-content padding of the non-numeric
renderers. The subtraction width - size is unsigned int arithmetic in the
source and wraps around rather than clamping. -/
def printPreFill (fmt : FormatterItem) (size : Nat) : List Char :=
  if fmt.width = WIDTH_EMPTY then []
  else if !fmt.flags.leftJustify then List.replicate (sub32 fmt.width size) ' '
  else []

/-- Formatter::printPostFill: the post-content padding of the non-numeric
renderers, emitted only under left-justify. -/
def printPostFill (fmt : FormatterItem) (size : Nat) : List Char :=
  if fmt.width = WIDTH_EMPTY then []
  else if fmt.flags.leftJustify then List.replicate (sub32 fmt.width size) ' '
  else []

/-- Pointer size of the modelled platform (sizeof(void*) on a 64-bit target). -/
def ptrBytes : Nat := 8

/-- Formatter::printPointer (the pointer overload): the address as an
unsigned integer of pointer width, rendered in base 16 with the flag set
replaced by explicit-base alone, the precision forced to two hex digits per
pointer byte and the conversion character forced to lowercase x. -/
def printPointer (fmt : FormatterItem) (a : Nat) : Except FormatError (List Char) :=
  printIntegral 16
    { fmt with
      flags := { leftJustify := false, showSign := false, explicitBase := true,
                 fillZero := false, addSpace := false },
      precision := ptrBytes * 2,
      formatChar := 'x' }
    { bits := ptrBytes * 8, signed := false, val := (a : Int) }

/-- Formatter::printChar: requires convertibility to the character type.
Characters print themselves; bool and machine integers are convertible in
C++ and convert through their low byte here. A floating argument would also
convert in the source; floating payloads are not carried by this model, so
the floating case is left at the NotImplemented error the floating renderers
produce, and no claim exercises it. -/
def printChar (fmt : FormatterItem) (v : Value) : Except FormatError (List Char) :=
  match v with
  | .ch c => .ok (printPreFill fmt 1 ++ [c] ++ printPostFill fmt 1)
  | .bool b => .ok (printPreFill fmt 1 ++ [Char.ofNat (if b then 1 else 0)] ++ printPostFill fmt 1)
  | .int m => .ok (printPreFill fmt 1 ++ [Char.ofNat (m.val % 256).toNat] ++ printPostFill fmt 1)
  | .float => .error .NotImplemented
  | _ => .error .IncompatibleType

/-- The integral-only entry of Formatter::printIntegral: non-integral
arguments signal IncompatibleType. A char argument is an integral type in
C++ and renders through its code. -/
def printIntegralV (base : Int) (fmt : FormatterItem) (v : Value) :
    Except FormatError (List Char) :=
  match v with
  | .int m => printIntegral base fmt m
  | .ch c => printIntegral base fmt { bits := 8, signed := true, val := (c.toNat : Int) }
  | _ => .error .IncompatibleType

/-- Formatter::printUnsigned: the make_unsigned cast composed with the
integral renderer; non-integral arguments signal IncompatibleType. -/
def printUnsignedV (base : Int) (fmt : FormatterItem) (v : Value) :
    Except FormatError (List Char) :=
  match v with
  | .int m => printIntegral base fmt (toUnsigned m)
  | .ch c => printIntegral base fmt (toUnsigned { bits := 8, signed := true, val := (c.toNat : Int) })
  | _ => .error .IncompatibleType

/-- Formatter::printPointer entry: non-pointer arguments signal
IncompatibleType. -/
def printPointerV (fmt : FormatterItem) (v : Value) : Except FormatError (List Char) :=
  match v with
  | .ptr a => printPointer fmt a
  | _ => .error .IncompatibleType

/-- The printByType overload set: the renderer selected by the static type of
the argument when the conversion character is s. -/
def printByType (fmt : FormatterItem) (v : Value) : Except FormatError (List Char) :=
  match v with
  | .bool b =>
    let w := if b then ['t', 'r', 'u', 'e'] else ['f', 'a', 'l', 's', 'e']
    .ok (printPreFill fmt w.length ++ w ++ printPostFill fmt w.length)
  | .ch c => printChar fmt (.ch c)
  | .str s => .ok (printPreFill fmt s.length ++ s ++ printPostFill fmt s.length)
  | .int m => printIntegral 10 fmt m
  | .ptr a => printPointer fmt a
  | .float => .error .NotImplemented
  | .other => .error .IncompatibleType

/-- The conversion-character switch of Formatter::printArg. -/
def dispatchConv (fmt : FormatterItem) (v : Value) : Except FormatError (List Char) :=
  match fmt.formatChar with
  | 's' => printByType fmt v
  | 'c' => printChar fmt v
  | 'b' => printUnsignedV 2 fmt v
  | 'd' => printIntegralV 10 fmt v
  | 'o' => printUnsignedV 8 fmt v
  | 'x' => printUnsignedV 16 fmt v
  | 'X' => printUnsignedV 16 fmt v
  | 'p' => printPointerV fmt v
  | 'e' => .error .NotImplemented
  | 'E' => .error .NotImplemented
  | 'f' => .error .NotImplemented
  | 'F' => .error .NotImplemented
  | 'g' => .error .NotImplemented
  | 'G' => .error .NotImplemented
  | 'a' => .error .NotImplemented
  | 'A' => .error .NotImplemented
  | _ => .error .InvalidFormatter

/-- Formatter::printArg: walks the argument pack decrementing the target
index; an exhausted pack signals TooFewArguments, reaching index zero
dispatches on the conversion character. -/
def printArg : Nat → FormatterItem → List Value → Except FormatError (List Char)
  | _, _, [] => .error .TooFewArguments
  | item, fmt, a :: rest =>
    if item ≠ 0 then printArg (item - 1) fmt rest else dispatchConv fmt a

/-- The per-directive update of the positional state of Formatter::print:
given the engaged flag, the counter and the parsed position of the directive,
produces the new engaged flag, the new counter and the effective argument
index. An explicit position engages positional mode and overwrites the
counter; the counter is incremented only when it was used while positional
mode is not engaged. -/
def directiveStep (positional : Bool) (counter : Nat) (parsedPos : Nat) :
    Bool × Nat × Nat :=
  if parsedPos = POSITION_NONE then
    (positional, if positional then counter else (counter + 1) % U32, counter)
  else (true, parsedPos, parsedPos)

/-- The sequence of effective argument indices produced by a sequence of
parsed directive positions, threading the positional state exactly as
Formatter::print does. -/
def runEff (positional : Bool) (counter : Nat) : List Nat → List Nat
  | [] => []
  | p :: ps =>
    let st := directiveStep positional counter p
    st.2.2 :: runEff st.1 st.2.1 ps

/-- The scanning loop of Formatter::print: literal characters are copied,
a doubled percent emits one percent, a percent-parenthesis signals
NotImplemented, and any other percent parses a directive, resolves its
effective position and dispatches. The fuel starts at one more than the
template length and cannot run out, since every iteration consumes at least
one character. -/
def scan (args : List Value) : Nat → List Char → Bool → Nat → Except FormatError (List Char)
  | 0, _, _, _ => .error .InvalidFormatter
  | fuel + 1, l, positional, counter =>
    match l with
    | [] => .ok []
    | '%' :: rest =>
      match rest with
      | '%' :: r =>
        match scan args fuel r positional counter with
        | .ok out => .ok ('%' :: out)
        | .error e => .error e
      | '(' :: _ => .error .NotImplemented
      | _ =>
        match handleFormatter rest with
        | .error e => .error e
        | .ok (fmt, r) =>
          let st := directiveStep positional counter fmt.position
          match printArg st.2.2 fmt args with
          | .error e => .error e
          | .ok out1 =>
            match scan args fuel r st.1 st.2.1 with
            | .ok out => .ok (out1 ++ out)
            | .error e => .error e
    | c :: rest =>
      match scan args fuel rest positional counter with
      | .ok out => .ok (c :: out)
      | .error e => .error e

/-- Formatter::print on a whole template: the entry point writef reaches
this with positional mode off and the counter at zero. -/
def format (tmpl : String) (args : List Value) : Except FormatError String :=
  match scan args (tmpl.length + 1) tmpl.toList false 0 with
  | .ok l => .ok (String.mk l)
  | .error e => .error e

theorem natAbs_tmod (a b : Int) : (a.tmod b).natAbs = a.natAbs % b.natAbs := by
  cases a <;> cases b <;> simp [Int.tmod, Int.natAbs_neg] <;> norm_cast

theorem extract_zero (base : Int) (upper : Bool) (fuel : Nat) (acc : List Char) :
    extractDigits base upper fuel 0 acc = acc := by
  cases fuel <;> simp [extractDigits]

theorem extractDigits_append (base : Int) (upper : Bool) :
    ∀ (fuel : Nat) (v : Int) (acc : List Char),
      extractDigits base upper fuel v acc = extractDigits base upper fuel v [] ++ acc := by
  intro fuel
  induction fuel with
  | zero => intro v acc; simp [extractDigits]
  | succ n ih =>
    intro v acc
    by_cases hv : v = 0
    · simp [extractDigits, hv]
    · simp only [extractDigits, if_neg hv]
      by_cases hd : v.tmod base < 0
      · simp only [if_pos hd]
        rw [ih _ (_ :: acc), ih _ [_]]
        simp
      · simp only [if_neg hd]
        rw [ih _ (_ :: acc), ih _ [_]]
        simp

theorem extract_step (base : Int) (upper : Bool) (fuel : Nat) (v : Int) (hv : v ≠ 0) :
    ∃ w : Int, w.natAbs = v.natAbs / base.natAbs ∧
      extractDigits base upper (fuel + 1) v [] =
        extractDigits base upper fuel w [] ++
          [digitChar upper (if v.tmod base < 0 then -(v.tmod base) else v.tmod base)] := by
  by_cases hd : v.tmod base < 0
  · refine ⟨-(v.tdiv base), ?_, ?_⟩
    · rw [Int.natAbs_neg, Int.natAbs_tdiv]; rfl
    · simp only [extractDigits, if_neg hv, if_pos hd]
      rw [extractDigits_append]
  · refine ⟨v.tdiv base, ?_, ?_⟩
    · rw [Int.natAbs_tdiv]; rfl
    · simp only [extractDigits, if_neg hv, if_neg hd]
      rw [extractDigits_append]

theorem extract_length_le (base : Int) (upper : Bool) (hb : 1 < base.natAbs) :
    ∀ (k fuel : Nat) (v : Int), v.natAbs < base.natAbs ^ k → k ≤ fuel →
      (extractDigits base upper fuel v []).length ≤ k := by
  intro k
  induction k with
  | zero =>
    intro fuel v hv _
    have h1 : v.natAbs < 1 := by simpa using hv
    have h0 : v = 0 := by omega
    rw [h0, extract_zero]
    simp
  | succ k ih =>
    intro fuel v hv hk
    by_cases hv0 : v = 0
    · rw [hv0, extract_zero]; simp
    · obtain ⟨f, rfl⟩ : ∃ f, fuel = f + 1 := ⟨fuel - 1, by omega⟩
      obtain ⟨w, hw, he⟩ := extract_step base upper f v hv0
      rw [he]
      have hwlt : w.natAbs < base.natAbs ^ k := by
        rw [hw]
        have hbpos : 0 < base.natAbs := by omega
        rw [Nat.div_lt_iff_lt_mul hbpos]
        calc v.natAbs < base.natAbs ^ (k + 1) := hv
          _ = base.natAbs ^ k * base.natAbs := by ring
      have := ih f w hwlt (by omega)
      simp only [List.length_append, List.length_cons, List.length_nil]
      omega

theorem extract_length_pos (base : Int) (upper : Bool) (fuel : Nat) (v : Int) (hv : v ≠ 0) :
    1 ≤ (extractDigits base upper (fuel + 1) v []).length := by
  obtain ⟨w, _, he⟩ := extract_step base upper fuel v hv
  rw [he]
  simp

theorem digitsVal_append_one (xs : List Char) (c : Char) :
    digitsVal (xs ++ [c]) = digitsVal xs * 10 + (c.toNat - '0'.toNat) := by
  simp [digitsVal, List.foldl_append]

theorem charOfNat_digit_toNat : ∀ n : Nat, n < 10 → (Char.ofNat (48 + n)).toNat = 48 + n := by
  decide

theorem digitChar_toNat10 (d : Int) (h0 : 0 ≤ d) (h10 : d < 10) :
    (digitChar false d).toNat = 48 + d.toNat := by
  have hn : d.toNat < 10 := by omega
  have h48 : '0'.toNat = 48 := rfl
  simp only [digitChar, if_neg (by omega : ¬ 10 ≤ d), h48]
  exact charOfNat_digit_toNat d.toNat hn

theorem digitsVal_extract :
    ∀ (k fuel : Nat) (v : Int), v.natAbs < 10 ^ k → k ≤ fuel →
      digitsVal (extractDigits 10 false fuel v []) = v.natAbs := by
  intro k
  induction k with
  | zero =>
    intro fuel v hv _
    have h1 : v.natAbs < 1 := by simpa using hv
    have h0 : v = 0 := by omega
    rw [h0, extract_zero]
    simp [digitsVal]
  | succ k ih =>
    intro fuel v hv hk
    by_cases hv0 : v = 0
    · rw [hv0, extract_zero]; simp [digitsVal, hv0]
    · obtain ⟨f, rfl⟩ : ∃ f, fuel = f + 1 := ⟨fuel - 1, by omega⟩
      obtain ⟨w, hw, he⟩ := extract_step 10 false f v hv0
      have h10 : (10 : Int).natAbs = 10 := rfl
      rw [h10] at hw
      have hDabs : (if v.tmod 10 < 0 then -(v.tmod 10) else v.tmod 10).natAbs = v.natAbs % 10 := by
        by_cases hd : v.tmod 10 < 0 <;>
          simp only [if_pos, if_neg, hd, ite_true, ite_false, Int.natAbs_neg] <;>
          rw [natAbs_tmod] <;> rfl
      have hD0 : 0 ≤ if v.tmod 10 < 0 then -(v.tmod 10) else v.tmod 10 := by
        by_cases hd : v.tmod 10 < 0 <;> simp [hd] <;> omega
      have hDlt : (if v.tmod 10 < 0 then -(v.tmod 10) else v.tmod 10) < 10 := by
        have hm : v.natAbs % 10 < 10 := Nat.mod_lt _ (by norm_num)
        omega
      rw [he, digitsVal_append_one]
      have hwlt : w.natAbs < 10 ^ k := by
        rw [hw, Nat.div_lt_iff_lt_mul (by norm_num : (0:Nat) < 10)]
        calc v.natAbs < 10 ^ (k + 1) := hv
          _ = 10 ^ k * 10 := by ring
      rw [ih f w hwlt (by omega)]
      rw [digitChar_toNat10 _ hD0 hDlt]
      have h48 : '0'.toNat = 48 := rfl
      rw [h48, hw]
      omega

theorem extractDigitsChk_eq (bits : Nat) :
    ∀ (fuel : Nat) (v : Int) (acc : List Char), v.natAbs ≤ 2 ^ (bits - 1) →
      extractDigitsChk bits 10 false fuel v acc = some (extractDigits 10 false fuel v acc) := by
  intro fuel
  induction fuel with
  | zero => intro v acc _; simp [extractDigitsChk, extractDigits]
  | succ f ih =>
    intro v acc hv
    by_cases hv0 : v = 0
    · simp [extractDigitsChk, extractDigits, hv0]
    · have habs : (v.tdiv 10).natAbs = v.natAbs / 10 := by rw [Int.natAbs_tdiv]; rfl
      have hpos : 0 < 2 ^ (bits - 1) := pow_pos (by norm_num) _
      have hdivlt : v.natAbs / 10 < 2 ^ (bits - 1) :=
        lt_of_le_of_lt (Nat.div_le_div_right hv) (Nat.div_lt_self hpos (by norm_num))
      by_cases hd : v.tmod 10 < 0
      · have hneg : negChk bits (v.tdiv 10) = some (-(v.tdiv 10)) := by
          have hc : ((2 ^ (bits - 1) : Nat) : Int) = (2 : Int) ^ (bits - 1) := by push_cast; ring
          unfold negChk
          rw [if_pos]
          constructor
          · rw [← hc]; omega
          · rw [← hc]; omega
        simp only [extractDigitsChk, extractDigits, if_neg hv0, if_pos hd, hneg]
        exact ih _ _ (by rw [Int.natAbs_neg, habs]; omega)
      · simp only [extractDigitsChk, extractDigits, if_neg hv0, if_neg hd]
        exact ih _ _ (by rw [habs]; omega)

theorem i32_small (x : Nat) (h : x < 2147483648) : i32 x = (x : Int) := by
  have hU : x % U32 = x := Nat.mod_eq_of_lt (by unfold U32; omega)
  simp [i32, hU, h]

theorem sub32_zero : sub32 (sub32 0 0) 0 = 0 := by decide

theorem fill_of_width_empty (size zerofill : Nat)
    (hs : size < 2147483648) (hz : zerofill < 2147483648) :
    (if 0 ≤ i32 0 - i32 size - i32 zerofill then sub32 (sub32 0 size) zerofill else 0) = 0 := by
  rw [i32_small 0 (by norm_num), i32_small size hs, i32_small zerofill hz]
  simp only [Nat.cast_zero]
  by_cases hc : (0 : Int) ≤ 0 - (size : Int) - (zerofill : Int)
  · rw [if_pos hc]
    have hs0 : size = 0 := by omega
    have hz0 : zerofill = 0 := by omega
    rw [hs0, hz0, sub32_zero]
  · rw [if_neg hc]

theorem printIntegral_width_empty (base : Int) (fmt : FormatterItem) (m : MachInt)
    (hw : fmt.width = WIDTH_EMPTY)
    (hp : fmt.precision ≠ WIDTH_ARG)
    (hsize : (digits64 base (fmt.formatChar == 'X') m.val).length + signOrBaseExtra fmt m <
      2147483648)
    (hzf : (if fmt.precision = WIDTH_EMPTY then 1 else fmt.precision) < 2147483648) :
    printIntegral base fmt m =
      .ok (signOrBase fmt m ++
        List.replicate ((if fmt.precision = WIDTH_EMPTY then 1 else fmt.precision) -
          (digits64 base (fmt.formatChar == 'X') m.val).length) '0' ++
        digits64 base (fmt.formatChar == 'X') m.val) := by
  have hWE : WIDTH_EMPTY ≠ WIDTH_ARG := by decide
  simp only [printIntegral, hw, if_neg hp, if_neg hWE, if_pos rfl, ite_true]
  set digits := digits64 base (fmt.formatChar == 'X') m.val with hd
  set numsize := digits.length
  set zf0 := if fmt.precision = WIDTH_EMPTY then 1 else fmt.precision with hzf0
  have hzsub : (if numsize < zf0 then zf0 - numsize else 0) = zf0 - numsize := by
    by_cases h : numsize < zf0
    · rw [if_pos h]
    · rw [if_neg h]; omega
  rw [hzsub]
  have hzlt : zf0 - numsize < 2147483648 := by omega
  rw [fill_of_width_empty (numsize + signOrBaseExtra fmt m) (zf0 - numsize) hsize hzlt]
  have hmod : (zf0 - numsize) % U32 = zf0 - numsize :=
    Nat.mod_eq_of_lt (by unfold U32; omega)
  by_cases hfz : fmt.flags.fillZero <;> by_cases hlj : fmt.flags.leftJustify <;>
    simp [hfz, hlj, hmod]

theorem digits64_len10 (v : Int) (h : v.natAbs < 2 ^ 64) :
    (digits64 10 false v).length ≤ 20 := by
  have h10 : (10 : Int).natAbs = 10 := rfl
  exact extract_length_le 10 false (by rw [h10]; norm_num) 20 64 v
    (by rw [h10]; calc v.natAbs < 2 ^ 64 := h
          _ < 10 ^ 20 := by norm_num) (by norm_num)

theorem digits64_len16 (v : Int) (h : v.natAbs < 2 ^ 64) :
    (digits64 16 false v).length ≤ 16 := by
  have h16 : (16 : Int).natAbs = 16 := rfl
  exact extract_length_le 16 false (by rw [h16]; norm_num) 16 64 v
    (by rw [h16]; calc v.natAbs < 2 ^ 64 := h
          _ ≤ 16 ^ 16 := by norm_num) (by norm_num)

theorem digits64_len16u (u : Bool) (v : Int) (h : v.natAbs < 2 ^ 64) :
    (digits64 16 u v).length ≤ 16 := by
  have h16 : (16 : Int).natAbs = 16 := rfl
  exact extract_length_le 16 u (by rw [h16]; norm_num) 16 64 v
    (by rw [h16]; calc v.natAbs < 2 ^ 64 := h
          _ ≤ 16 ^ 16 := by norm_num) (by norm_num)

theorem printArg_get :
    ∀ (args : List Value) (i : Nat) (fmt : FormatterItem) (h : i < args.length),
      printArg i fmt args = dispatchConv fmt (args.get ⟨i, h⟩) := by
  intro args
  induction args with
  | nil => intro i fmt h; simp at h
  | cons a rest ih =>
    intro i fmt h
    by_cases hi : i = 0
    · subst hi; simp [printArg]
    · obtain ⟨j, rfl⟩ : ∃ j, i = j + 1 := ⟨i - 1, by omega⟩
      simp only [printArg, if_pos hi, Nat.add_sub_cancel]
      have hj : j < rest.length := by simpa using h
      rw [ih j fmt hj]
      simp

/-- C1: the claim expects printf-style positions, but explicit N-dollar
positions are zero-based argument indices in this code, exactly like the
sequential counter that starts at zero: a directive with effective index i
renders argument number i counting from zero, the template with positions
2 and 1 over two arguments walks past the end and signals TooFewArguments,
and the reordering example holds with positions 1 and 0 instead. -/
theorem C1_positions_zero_based :
    (∀ (args : List Value) (i : Nat) (fmt : FormatterItem) (h : i < args.length),
      printArg i fmt args = dispatchConv fmt (args.get ⟨i, h⟩)) ∧
    format "%1$s %0$s" [.str "world".toList, .str "hello".toList] = .ok "hello world" ∧
    format "%2$s %1$s" [.str "world".toList, .str "hello".toList] =
      .error .TooFewArguments := by
  refine ⟨printArg_get, by decide, by decide⟩

/-- C1 counterexample: formatting the template with positions 2 and 1 over
the two arguments world and hello does not produce hello world; it signals
TooFewArguments, because position 2 selects a third argument that does not
exist. -/
theorem C1_positions_cex :
    format "%2$s %1$s" [.str "world".toList, .str "hello".toList] ≠ .ok "hello world" ∧
    format "%2$s %1$s" [.str "world".toList, .str "hello".toList] =
      .error .TooFewArguments := by
  constructor
  · decide
  · decide

/-- C1 witness: the general indexing fact applied at index 1 of a concrete
two-element argument list. -/
theorem C1_positions_zero_based_witness :
    printArg 1 ⟨0, ⟨false, false, false, false, false⟩, WIDTH_EMPTY, WIDTH_EMPTY, 'd'⟩
        [.bool true, .int ⟨32, true, 7⟩] =
      dispatchConv ⟨0, ⟨false, false, false, false, false⟩, WIDTH_EMPTY, WIDTH_EMPTY, 'd'⟩
        (.int ⟨32, true, 7⟩) :=
  C1_positions_zero_based.1 [.bool true, .int ⟨32, true, 7⟩] 1 _ (by decide)

theorem runEff_frozen :
    ∀ (ps : List Nat) (c : Nat), (∀ q ∈ ps, q = POSITION_NONE) →
      runEff true c ps = List.replicate ps.length c := by
  intro ps
  induction ps with
  | nil => intro c _; rfl
  | cons q rest ih =>
    intro c h
    have hq : q = POSITION_NONE := h q (by simp)
    subst hq
    have hstep : directiveStep true c POSITION_NONE = (true, c, c) := by
      simp [directiveStep]
    simp only [runEff, hstep]
    rw [ih c (fun r hr => h r (by simp [hr]))]
    simp [List.replicate_succ]

/-- C2: the corrected description of the position counter. The counter is
incremented after a directive only while no explicit position has occurred;
a directive with an explicit position engages positional mode, is never
followed by an increment again, and overwrites the counter with its own
position, so every later directive without an explicit position uses the
most recently supplied explicit position (not the counter value from the
moment positional mode was engaged) as its effective argument index. -/
theorem C2_counter_behavior :
    (∀ (s : Bool) (c p : Nat) (ps : List Nat), p ≠ POSITION_NONE →
      (∀ q ∈ ps, q = POSITION_NONE) →
      runEff s c (p :: ps) = p :: List.replicate ps.length p) ∧
    (∀ (c : Nat) (ps : List Nat), (∀ q ∈ ps, q = POSITION_NONE) → c + ps.length < U32 →
      runEff false c ps = List.range' c ps.length) := by
  constructor
  · intro s c p ps hp hps
    simp only [runEff, directiveStep, if_neg hp]
    rw [runEff_frozen ps p hps]
  · intro c ps
    induction ps generalizing c with
    | nil => intro _ _; rfl
    | cons q rest ih =>
      intro h hlt
      have hq : q = POSITION_NONE := h q (by simp)
      subst hq
      have hmod : (c + 1) % U32 = c + 1 := Nat.mod_eq_of_lt (by simp at hlt; omega)
      have hstep : directiveStep false c POSITION_NONE = (false, c + 1, c) := by
        simp [directiveStep, hmod]
      simp only [runEff, hstep]
      rw [ih (c + 1) (fun r hr => h r (by simp [hr])) (by simp at hlt ⊢; omega)]
      rfl

/-- C2 counterexample: in the template with an explicit position 1 followed
by a plain directive, the second directive renders argument 1 again (the
explicit position that overwrote the counter), not argument 0 (the counter
value at the moment positional mode was engaged): the output is B B, not
B A. -/
theorem C2_counter_cex :
    format "%1$s %s" [.str "A".toList, .str "B".toList] = .ok "B B" ∧
    format "%1$s %s" [.str "A".toList, .str "B".toList] ≠ .ok "B A" := by
  constructor
  · decide
  · decide

/-- C2 witness: the two parts of the counter description applied to concrete
directive sequences. -/
theorem C2_counter_behavior_witness :
    runEff false 0 [1, POSITION_NONE, POSITION_NONE] = [1, 1, 1] ∧
    runEff false 5 [POSITION_NONE, POSITION_NONE] = [5, 6] := by
  constructor
  · rw [C2_counter_behavior.1 false 0 1 [POSITION_NONE, POSITION_NONE]
      (by decide) (by decide)]
    rfl
  · rw [C2_counter_behavior.2 5 [POSITION_NONE, POSITION_NONE] (by decide) (by decide)]
    rfl

/-- C3: the claim says the padding of the non-numeric renderers clamps the
fill width minus rendered size to zero; the code computes the difference in
unsigned int arithmetic with no clamp, so a rendered value wider than the
requested width wraps around. Parsing the directive with width 1 and
conversion s and pre-filling for a rendered size of 2 emits 4294967295
spaces, not zero. -/
theorem C3_prefill_wraparound :
    handleFormatter ("1s".toList) =
      .ok (⟨POSITION_NONE, ⟨false, false, false, false, false⟩, 1, WIDTH_EMPTY, 's'⟩, []) ∧
    (printPreFill ⟨POSITION_NONE, ⟨false, false, false, false, false⟩, 1, WIDTH_EMPTY, 's'⟩
        2).length = 4294967295 := by
  constructor
  · decide
  · have hpre : printPreFill
        ⟨POSITION_NONE, ⟨false, false, false, false, false⟩, 1, WIDTH_EMPTY, 's'⟩ 2 =
        List.replicate (sub32 1 2) ' ' := rfl
    rw [hpre, List.length_replicate]
    decide

/-- C8: the flag normalizer establishes, for every parsed directive: show-
sign and add-space are cleared unless the conversion is d, b or s; the
explicit-base flag is cleared for d and b; add-space is cleared whenever
show-sign is set; zero-fill is cleared whenever left-justify is set; and
every successfully parsed directive is in the image of the normalizer. -/
theorem C8_fix_flags_invariant :
    (∀ f : FormatterItem,
      ((f.formatChar ≠ 'd' ∧ f.formatChar ≠ 'b' ∧ f.formatChar ≠ 's') →
        (fixFlags f).flags.showSign = false ∧ (fixFlags f).flags.addSpace = false) ∧
      ((f.formatChar = 'd' ∨ f.formatChar = 'b') →
        (fixFlags f).flags.explicitBase = false) ∧
      ((fixFlags f).flags.showSign = true → (fixFlags f).flags.addSpace = false) ∧
      ((fixFlags f).flags.leftJustify = true → (fixFlags f).flags.fillZero = false)) ∧
    (∀ (l rest : List Char) (fmt : FormatterItem),
      handleFormatter l = .ok (fmt, rest) → ∃ g, fmt = fixFlags g) := by
  constructor
  · rintro ⟨pos, ⟨lj, ss, eb, fz, asp⟩, w, p, fc⟩
    refine ⟨?_, ?_, ?_, ?_⟩ <;>
      · simp only [fixFlags]
        split_ifs <;> simp_all
  · intro l rest fmt h
    simp only [handleFormatter] at h
    cases hfc : handleFormatChar (handlePrecision (handleWidth (handleFlags
        (handlePosition l).2 {}).2).2).2 with
    | ok y =>
      obtain ⟨c, l5⟩ := y
      rw [hfc] at h
      injection h with h1
      exact ⟨_, (((Prod.mk.injEq _ _ _ _).mp h1).1).symm⟩
    | error e => rw [hfc] at h; exact absurd h (by simp)

/-- C9: a directive whose effective index is at least the number of supplied
arguments walks the argument pack to exhaustion and signals TooFewArguments;
in particular formatting a d directive with no arguments signals it. -/
theorem C9_too_few_arguments :
    (∀ (args : List Value) (item : Nat) (fmt : FormatterItem), args.length ≤ item →
      printArg item fmt args = .error .TooFewArguments) ∧
    format "%d" [] = .error .TooFewArguments := by
  constructor
  · intro args
    induction args with
    | nil => intro item fmt _; rfl
    | cons a rest ih =>
      intro item fmt h
      have hne : item ≠ 0 := by simp at h; omega
      simp only [printArg, if_pos hne]
      exact ih (item - 1) fmt (by simp at h; omega)
  · decide

/-- C9 witness: three arguments short of index three. -/
theorem C9_too_few_arguments_witness :
    printArg 3 ⟨0, ⟨false, false, false, false, false⟩, WIDTH_EMPTY, WIDTH_EMPTY, 'd'⟩
      [.bool true] = .error .TooFewArguments :=
  C9_too_few_arguments.1 [.bool true] 3 _ (by decide)

/-- C8 witness: the normalizer invariants applied at concrete directives,
and a concrete successful parse exhibited as a normalizer image. -/
theorem C8_fix_flags_invariant_witness :
    ((fixFlags ⟨0, ⟨true, true, true, true, true⟩, WIDTH_EMPTY, WIDTH_EMPTY,
        'x'⟩).flags.showSign = false ∧
      (fixFlags ⟨0, ⟨true, true, true, true, true⟩, WIDTH_EMPTY, WIDTH_EMPTY,
        'x'⟩).flags.addSpace = false) ∧
    (fixFlags ⟨0, ⟨false, false, true, false, false⟩, WIDTH_EMPTY, WIDTH_EMPTY,
      'd'⟩).flags.explicitBase = false ∧
    (fixFlags ⟨0, ⟨false, true, false, false, true⟩, WIDTH_EMPTY, WIDTH_EMPTY,
      'd'⟩).flags.addSpace = false ∧
    (fixFlags ⟨0, ⟨true, true, true, true, true⟩, WIDTH_EMPTY, WIDTH_EMPTY,
      'x'⟩).flags.fillZero = false ∧
    (∃ g, (⟨POSITION_NONE, ⟨false, false, false, false, false⟩, WIDTH_EMPTY, WIDTH_EMPTY,
      'd'⟩ : FormatterItem) = fixFlags g) :=
  ⟨(C8_fix_flags_invariant.1 _).1 (by decide),
    (C8_fix_flags_invariant.1 _).2.1 (Or.inl rfl),
    (C8_fix_flags_invariant.1 _).2.2.1 (by decide),
    (C8_fix_flags_invariant.1 _).2.2.2 (by decide),
    C8_fix_flags_invariant.2 ("d".toList) [] _ (by decide)⟩

/-- C4: the zero-fill floor of the integral renderer. With an explicit
precision p the digit run is left-padded with zeros up to p digits (so with
p = 0 and value 0 it is empty); with precision absent the floor is one digit,
so value 0 renders as a single zero. Stated for nonnegative renders of up to
64 bits with no flags and no width, plus the concrete template forms. -/
theorem C4_precision_digit_floor :
    (∀ (p : Nat) (m : MachInt), p < 2147483648 → isNegative m = false →
      m.val.natAbs < 2 ^ 64 →
      printIntegral 10 ⟨0, ⟨false, false, false, false, false⟩, WIDTH_EMPTY, p, 'd'⟩ m =
        .ok (List.replicate (p - (digits64 10 false m.val).length) '0' ++
          digits64 10 false m.val)) ∧
    (∀ m : MachInt, isNegative m = false → m.val.natAbs < 2 ^ 64 →
      printIntegral 10 ⟨0, ⟨false, false, false, false, false⟩, WIDTH_EMPTY, WIDTH_EMPTY,
          'd'⟩ m =
        .ok (List.replicate (1 - (digits64 10 false m.val).length) '0' ++
          digits64 10 false m.val)) ∧
    format "%d" [.int ⟨32, true, 0⟩] = .ok "0" ∧
    format "%.0d" [.int ⟨32, true, 0⟩] = .ok "" ∧
    format "%.5d" [.int ⟨32, true, 42⟩] = .ok "00042" := by
  have hdX : (('d' : Char) == 'X') = false := by decide
  refine ⟨?_, ?_, by decide, by decide, by decide⟩
  · intro p m hp hneg hm
    have hlen : (digits64 10 false m.val).length ≤ 20 := digits64_len10 _ hm
    have hextra : signOrBaseExtra
        ⟨0, ⟨false, false, false, false, false⟩, WIDTH_EMPTY, p, 'd'⟩ m = 0 := by
      simp [signOrBaseExtra, hneg]
    have hsign : signOrBase
        ⟨0, ⟨false, false, false, false, false⟩, WIDTH_EMPTY, p, 'd'⟩ m = [] := by
      simp [signOrBase, hneg]
    have hPne : p ≠ WIDTH_ARG := by unfold WIDTH_ARG U32; omega
    have hPnem : p ≠ WIDTH_EMPTY := by unfold WIDTH_EMPTY U32; omega
    rw [printIntegral_width_empty 10 _ m rfl hPne ?hs ?hz]
    case hs =>
      show (digits64 10 (('d' : Char) == 'X') m.val).length + _ < 2147483648
      rw [hdX, hextra]
      omega
    case hz =>
      show (if p = WIDTH_EMPTY then 1 else p) < 2147483648
      rw [if_neg hPnem]
      omega
    show Except.ok (signOrBase _ m ++ _ ++ _) = _
    rw [hsign, hdX, if_neg hPnem]
    simp
  · intro m hneg hm
    have hlen : (digits64 10 false m.val).length ≤ 20 := digits64_len10 _ hm
    have hextra : signOrBaseExtra
        ⟨0, ⟨false, false, false, false, false⟩, WIDTH_EMPTY, WIDTH_EMPTY, 'd'⟩ m = 0 := by
      simp [signOrBaseExtra, hneg]
    have hsign : signOrBase
        ⟨0, ⟨false, false, false, false, false⟩, WIDTH_EMPTY, WIDTH_EMPTY, 'd'⟩ m = [] := by
      simp [signOrBase, hneg]
    have hPne : WIDTH_EMPTY ≠ WIDTH_ARG := by decide
    rw [printIntegral_width_empty 10 _ m rfl hPne ?hs2 ?hz2]
    case hs2 =>
      show (digits64 10 (('d' : Char) == 'X') m.val).length + _ < 2147483648
      rw [hdX, hextra]
      omega
    case hz2 =>
      show (if WIDTH_EMPTY = WIDTH_EMPTY then 1 else WIDTH_EMPTY) < 2147483648
      rw [if_pos rfl]
      omega
    show Except.ok (signOrBase _ m ++ _ ++ _) = _
    rw [hsign, hdX, if_pos rfl]
    simp

/-- C4 witness: the digit floor applied at precision 5 with value 42, at
precision 0 with value 0, and the precision-absent floor at value 0. -/
theorem C4_precision_digit_floor_witness :
    printIntegral 10 ⟨0, ⟨false, false, false, false, false⟩, WIDTH_EMPTY, 5, 'd'⟩
        ⟨32, true, 42⟩ = .ok ("00042".toList) ∧
    printIntegral 10 ⟨0, ⟨false, false, false, false, false⟩, WIDTH_EMPTY, 0, 'd'⟩
        ⟨32, true, 0⟩ = .ok [] ∧
    printIntegral 10 ⟨0, ⟨false, false, false, false, false⟩, WIDTH_EMPTY, WIDTH_EMPTY,
        'd'⟩ ⟨32, true, 0⟩ = .ok ['0'] := by
  refine ⟨?_, ?_, ?_⟩
  · rw [C4_precision_digit_floor.1 5 ⟨32, true, 42⟩ (by norm_num) (by decide) (by decide)]
    decide
  · rw [C4_precision_digit_floor.1 0 ⟨32, true, 0⟩ (by norm_num) (by decide) (by decide)]
    decide
  · rw [C4_precision_digit_floor.2.1 ⟨32, true, 0⟩ (by decide) (by decide)]
    decide

theorem digits64_len8 (v : Int) (h : v.natAbs < 2 ^ 64) :
    (digits64 8 false v).length ≤ 22 := by
  have h8 : (8 : Int).natAbs = 8 := rfl
  exact extract_length_le 8 false (by rw [h8]; norm_num) 22 64 v
    (by rw [h8]; calc v.natAbs < 2 ^ 64 := h
          _ < 8 ^ 22 := by norm_num) (by norm_num)

/-- C5: with the explicit-base flag, the x and X conversions emit the 0x
and 0X pairs exactly when the value is nonzero (stated for unsigned renders
of up to 64 bits with no width and no precision), the o conversion always
emits one leading zero, and the concrete examples of the claim hold,
including the absence of the prefix at value zero for both letter cases. -/
theorem C5_explicit_base_marks :
    (∀ m : MachInt, m.signed = false → m.val ≠ 0 → m.val.natAbs < 2 ^ 64 →
      printIntegral 16 ⟨0, ⟨false, false, true, false, false⟩, WIDTH_EMPTY, WIDTH_EMPTY,
          'x'⟩ m =
        .ok (['0', 'x'] ++ digits64 16 false m.val)) ∧
    (∀ m : MachInt, m.signed = false → m.val = 0 →
      printIntegral 16 ⟨0, ⟨false, false, true, false, false⟩, WIDTH_EMPTY, WIDTH_EMPTY,
          'x'⟩ m =
        .ok ['0']) ∧
    (∀ m : MachInt, m.signed = false → m.val.natAbs < 2 ^ 64 →
      printIntegral 8 ⟨0, ⟨false, false, true, false, false⟩, WIDTH_EMPTY, WIDTH_EMPTY,
          'o'⟩ m =
        .ok ('0' :: (List.replicate (1 - (digits64 8 false m.val).length) '0' ++
          digits64 8 false m.val))) ∧
    format "%#x" [.int ⟨32, true, 255⟩] = .ok "0xff" ∧
    format "%#o" [.int ⟨32, true, 8⟩] = .ok "010" ∧
    format "%+d" [.int ⟨32, true, 42⟩] = .ok "+42" ∧
    format "%#x" [.int ⟨32, true, 0⟩] = .ok "0" ∧
    (∀ m : MachInt, m.signed = false → m.val ≠ 0 → m.val.natAbs < 2 ^ 64 →
      printIntegral 16 ⟨0, ⟨false, false, true, false, false⟩, WIDTH_EMPTY, WIDTH_EMPTY,
          'X'⟩ m =
        .ok (['0', 'X'] ++ digits64 16 true m.val)) ∧
    (∀ m : MachInt, m.signed = false → m.val = 0 →
      printIntegral 16 ⟨0, ⟨false, false, true, false, false⟩, WIDTH_EMPTY, WIDTH_EMPTY,
          'X'⟩ m =
        .ok ['0']) ∧
    format "%#X" [.int ⟨32, true, 255⟩] = .ok "0XFF" ∧
    format "%#X" [.int ⟨32, true, 0⟩] = .ok "0" := by
  have hxX : (('x' : Char) == 'X') = false := by decide
  have hXX : (('X' : Char) == 'X') = true := by decide
  have hoX : (('o' : Char) == 'X') = false := by decide
  have hEA : WIDTH_EMPTY ≠ WIDTH_ARG := by decide
  refine ⟨?_, ?_, ?_, by decide, by decide, by decide, by decide, ?_, ?_,
    by decide, by decide⟩
  · intro m hsg hv0 hm
    have hneg : isNegative m = false := by simp [isNegative, hsg]
    have hlen : (digits64 16 false m.val).length ≤ 16 := digits64_len16 _ hm
    have hpos : 1 ≤ (digits64 16 false m.val).length :=
      extract_length_pos 16 false 63 m.val hv0
    have hextra : signOrBaseExtra
        ⟨0, ⟨false, false, true, false, false⟩, WIDTH_EMPTY, WIDTH_EMPTY, 'x'⟩ m = 2 := by
      simp [signOrBaseExtra, hneg, hv0]
    have hsign : signOrBase
        ⟨0, ⟨false, false, true, false, false⟩, WIDTH_EMPTY, WIDTH_EMPTY, 'x'⟩ m =
        ['0', 'x'] := by
      simp [signOrBase, hv0]
    rw [printIntegral_width_empty 16 _ m rfl hEA ?hxs ?hxz]
    case hxs =>
      show (digits64 16 (('x' : Char) == 'X') m.val).length + _ < 2147483648
      rw [hxX, hextra]
      omega
    case hxz =>
      show (if WIDTH_EMPTY = WIDTH_EMPTY then 1 else WIDTH_EMPTY) < 2147483648
      rw [if_pos rfl]
      omega
    show Except.ok (signOrBase _ m ++ _ ++ _) = _
    rw [hsign, hxX, if_pos rfl]
    have hrep : 1 - (digits64 16 false m.val).length = 0 := by omega
    rw [hrep]
    simp
  · intro m hsg hv0
    have hneg : isNegative m = false := by simp [isNegative, hsg]
    have hd0 : digits64 16 false m.val = [] := by rw [hv0]; exact extract_zero 16 false 64 []
    have hextra : signOrBaseExtra
        ⟨0, ⟨false, false, true, false, false⟩, WIDTH_EMPTY, WIDTH_EMPTY, 'x'⟩ m = 0 := by
      simp [signOrBaseExtra, hneg, hv0]
    have hsign : signOrBase
        ⟨0, ⟨false, false, true, false, false⟩, WIDTH_EMPTY, WIDTH_EMPTY, 'x'⟩ m = [] := by
      simp [signOrBase, hv0]
    rw [printIntegral_width_empty 16 _ m rfl hEA ?hys ?hyz]
    case hys =>
      show (digits64 16 (('x' : Char) == 'X') m.val).length + _ < 2147483648
      rw [hxX, hextra, hd0]
      norm_num
    case hyz =>
      show (if WIDTH_EMPTY = WIDTH_EMPTY then 1 else WIDTH_EMPTY) < 2147483648
      rw [if_pos rfl]
      omega
    show Except.ok (signOrBase _ m ++ _ ++ _) = _
    rw [hsign, hxX, if_pos rfl, hd0]
    simp
  · intro m hsg hm
    have hneg : isNegative m = false := by simp [isNegative, hsg]
    have hlen : (digits64 8 false m.val).length ≤ 22 := digits64_len8 _ hm
    have hextra : signOrBaseExtra
        ⟨0, ⟨false, false, true, false, false⟩, WIDTH_EMPTY, WIDTH_EMPTY, 'o'⟩ m = 1 := by
      simp [signOrBaseExtra, hneg]
    have hsign : signOrBase
        ⟨0, ⟨false, false, true, false, false⟩, WIDTH_EMPTY, WIDTH_EMPTY, 'o'⟩ m =
        ['0'] := by
      simp [signOrBase]
    rw [printIntegral_width_empty 8 _ m rfl hEA ?hzs ?hzz]
    case hzs =>
      show (digits64 8 (('o' : Char) == 'X') m.val).length + _ < 2147483648
      rw [hoX, hextra]
      omega
    case hzz =>
      show (if WIDTH_EMPTY = WIDTH_EMPTY then 1 else WIDTH_EMPTY) < 2147483648
      rw [if_pos rfl]
      omega
    show Except.ok (signOrBase _ m ++ _ ++ _) = _
    rw [hsign, hoX, if_pos rfl]
    simp
  · intro m hsg hv0 hm
    have hneg : isNegative m = false := by simp [isNegative, hsg]
    have hlen : (digits64 16 true m.val).length ≤ 16 := digits64_len16u true _ hm
    have hpos : 1 ≤ (digits64 16 true m.val).length :=
      extract_length_pos 16 true 63 m.val hv0
    have hextra : signOrBaseExtra
        ⟨0, ⟨false, false, true, false, false⟩, WIDTH_EMPTY, WIDTH_EMPTY, 'X'⟩ m = 2 := by
      simp [signOrBaseExtra, hneg, hv0]
    have hsign : signOrBase
        ⟨0, ⟨false, false, true, false, false⟩, WIDTH_EMPTY, WIDTH_EMPTY, 'X'⟩ m =
        ['0', 'X'] := by
      simp [signOrBase, hv0]
    rw [printIntegral_width_empty 16 _ m rfl hEA ?hXs ?hXz]
    case hXs =>
      show (digits64 16 (('X' : Char) == 'X') m.val).length + _ < 2147483648
      rw [hXX, hextra]
      omega
    case hXz =>
      show (if WIDTH_EMPTY = WIDTH_EMPTY then 1 else WIDTH_EMPTY) < 2147483648
      rw [if_pos rfl]
      omega
    show Except.ok (signOrBase _ m ++ _ ++ _) = _
    rw [hsign, hXX, if_pos rfl]
    have hrep : 1 - (digits64 16 true m.val).length = 0 := by omega
    rw [hrep]
    simp
  · intro m hsg hv0
    have hneg : isNegative m = false := by simp [isNegative, hsg]
    have hd0 : digits64 16 true m.val = [] := by rw [hv0]; exact extract_zero 16 true 64 []
    have hextra : signOrBaseExtra
        ⟨0, ⟨false, false, true, false, false⟩, WIDTH_EMPTY, WIDTH_EMPTY, 'X'⟩ m = 0 := by
      simp [signOrBaseExtra, hneg, hv0]
    have hsign : signOrBase
        ⟨0, ⟨false, false, true, false, false⟩, WIDTH_EMPTY, WIDTH_EMPTY, 'X'⟩ m = [] := by
      simp [signOrBase, hv0]
    rw [printIntegral_width_empty 16 _ m rfl hEA ?hYs ?hYz]
    case hYs =>
      show (digits64 16 (('X' : Char) == 'X') m.val).length + _ < 2147483648
      rw [hXX, hextra, hd0]
      norm_num
    case hYz =>
      show (if WIDTH_EMPTY = WIDTH_EMPTY then 1 else WIDTH_EMPTY) < 2147483648
      rw [if_pos rfl]
      omega
    show Except.ok (signOrBase _ m ++ _ ++ _) = _
    rw [hsign, hXX, if_pos rfl, hd0]
    simp

/-- C5 witness: the prefix rules applied at the concrete unsigned values
255, 0 and 8, for both letter cases of the hexadecimal conversion. -/
theorem C5_explicit_base_marks_witness :
    printIntegral 16 ⟨0, ⟨false, false, true, false, false⟩, WIDTH_EMPTY, WIDTH_EMPTY,
        'x'⟩ ⟨32, false, 255⟩ = .ok ("0xff".toList) ∧
    printIntegral 16 ⟨0, ⟨false, false, true, false, false⟩, WIDTH_EMPTY, WIDTH_EMPTY,
        'x'⟩ ⟨32, false, 0⟩ = .ok ['0'] ∧
    printIntegral 8 ⟨0, ⟨false, false, true, false, false⟩, WIDTH_EMPTY, WIDTH_EMPTY,
        'o'⟩ ⟨32, false, 8⟩ = .ok ("010".toList) ∧
    printIntegral 16 ⟨0, ⟨false, false, true, false, false⟩, WIDTH_EMPTY, WIDTH_EMPTY,
        'X'⟩ ⟨32, false, 255⟩ = .ok ("0XFF".toList) ∧
    printIntegral 16 ⟨0, ⟨false, false, true, false, false⟩, WIDTH_EMPTY, WIDTH_EMPTY,
        'X'⟩ ⟨32, false, 0⟩ = .ok ['0'] := by
  refine ⟨?_, ?_, ?_, ?_, ?_⟩
  · rw [C5_explicit_base_marks.1 ⟨32, false, 255⟩ rfl (by decide) (by decide)]
    decide
  · exact C5_explicit_base_marks.2.1 ⟨32, false, 0⟩ rfl rfl
  · rw [C5_explicit_base_marks.2.2.1 ⟨32, false, 8⟩ rfl (by decide)]
    decide
  · rw [C5_explicit_base_marks.2.2.2.2.2.2.2.1 ⟨32, false, 255⟩ rfl (by decide) (by decide)]
    decide
  · exact C5_explicit_base_marks.2.2.2.2.2.2.2.2.1 ⟨32, false, 0⟩ rfl rfl

/-- C6: the digit loop negates the per-step remainder (and the already
divided remaining value), never the original value, so for every value of a
signed type of at most 64 bits every negation it performs stays
representable (the overflow-guarded loop equals the unguarded one), the
digits produced parse back to the absolute value, and the minimum 32-bit
and 64-bit values render through the d conversion with a leading minus and
the correct decimal digits. -/
theorem C6_min_int_digits :
    (∀ (bits : Nat) (v : Int), bits ≤ 64 → -((2 : Int) ^ (bits - 1)) ≤ v →
      v < (2 : Int) ^ (bits - 1) →
      extractDigitsChk bits 10 false 64 v [] = some (digits64 10 false v) ∧
      digitsVal (digits64 10 false v) = v.natAbs) ∧
    format "%d" [.int ⟨32, true, -2147483648⟩] = .ok "-2147483648" ∧
    format "%d" [.int ⟨64, true, -9223372036854775808⟩] = .ok "-9223372036854775808" ∧
    extractDigitsChk 32 10 false 64 (-2147483648) [] = some ("2147483648".toList) := by
  refine ⟨?_, by decide, by decide, by decide⟩
  intro bits v hb hlo hhi
  have hc : ((2 ^ (bits - 1) : Nat) : Int) = (2 : Int) ^ (bits - 1) := by push_cast; ring
  rw [← hc] at hlo hhi
  have habs : v.natAbs ≤ 2 ^ (bits - 1) := by omega
  constructor
  · exact extractDigitsChk_eq bits 64 v [] habs
  · refine digitsVal_extract 20 64 v ?_ (by norm_num)
    have h63 : (2 : Nat) ^ (bits - 1) ≤ 2 ^ 63 := Nat.pow_le_pow_right (by norm_num) (by omega)
    have h20 : (2 : Nat) ^ 63 < 10 ^ 20 := by norm_num
    omega

/-- C6 witness: the no-overflow and round-trip facts applied at the minimum
32-bit value. -/
theorem C6_min_int_digits_witness :
    extractDigitsChk 32 10 false 64 (-2147483648) [] =
      some (digits64 10 false (-2147483648)) ∧
    digitsVal (digits64 10 false (-2147483648)) = 2147483648 := by
  have h := C6_min_int_digits.1 32 (-2147483648) (by norm_num) (by norm_num) (by norm_num)
  exact ⟨h.1, by rw [h.2]; rfl⟩

/-- C7: the pointer renderer forces explicit-base on, precision to two hex
digits per pointer byte (16 on the modelled 64-bit platform) and conversion
to lowercase x: the digit run including its zero padding is always exactly
16 hex digits, and the 0x pair precedes it exactly when the address is
nonzero, so the null pointer renders without the prefix. Stated for any
directive without explicit width, plus the concrete address 255 and the
null pointer. -/
theorem C7_pointer_render :
    (∀ (fmt : FormatterItem) (a : Nat), fmt.width = WIDTH_EMPTY → a < 2 ^ 64 →
      printPointer fmt a =
        .ok ((if (a : Int) ≠ 0 then ['0', 'x'] else []) ++
          (List.replicate (16 - (digits64 16 false (a : Int)).length) '0' ++
            digits64 16 false (a : Int))) ∧
      (List.replicate (16 - (digits64 16 false (a : Int)).length) '0' ++
        digits64 16 false (a : Int)).length = 16) ∧
    format "%p" [.ptr 255] = .ok "0x00000000000000ff" ∧
    format "%p" [.ptr 0] = .ok "0000000000000000" := by
  have hxX : (('x' : Char) == 'X') = false := by decide
  refine ⟨?_, by decide, by decide⟩
  intro fmt a hw ha
  have hna : ((a : Int)).natAbs = a := Int.natAbs_ofNat a
  have hlen : (digits64 16 false (a : Int)).length ≤ 16 :=
    digits64_len16 _ (by rw [hna]; exact ha)
  have hp16 : (ptrBytes * 2 : Nat) ≠ WIDTH_ARG := by decide
  have hif16 : (if (ptrBytes * 2 : Nat) = WIDTH_EMPTY then 1 else ptrBytes * 2) = 16 := by
    decide
  have hex : signOrBaseExtra
      { fmt with
        flags := { leftJustify := false, showSign := false, explicitBase := true,
                   fillZero := false, addSpace := false },
        precision := ptrBytes * 2, formatChar := 'x' }
      { bits := ptrBytes * 8, signed := false, val := (a : Int) } ≤ 2 := by
    simp only [signOrBaseExtra, isNegative]
    split_ifs <;> simp_all
  have hsign : signOrBase
      { fmt with
        flags := { leftJustify := false, showSign := false, explicitBase := true,
                   fillZero := false, addSpace := false },
        precision := ptrBytes * 2, formatChar := 'x' }
      { bits := ptrBytes * 8, signed := false, val := (a : Int) } =
      if (a : Int) ≠ 0 then ['0', 'x'] else [] := by
    simp [signOrBase]
  constructor
  · have hsz : (digits64 16 (('x' : Char) == 'X') (a : Int)).length +
        signOrBaseExtra
          { fmt with
            flags := { leftJustify := false, showSign := false, explicitBase := true,
                       fillZero := false, addSpace := false },
            precision := ptrBytes * 2, formatChar := 'x' }
          { bits := ptrBytes * 8, signed := false, val := (a : Int) } < 2147483648 := by
      rw [hxX]
      omega
    have hzf : (if (ptrBytes * 2 : Nat) = WIDTH_EMPTY then 1 else ptrBytes * 2) <
        2147483648 := by
      rw [hif16]
      norm_num
    have h := printIntegral_width_empty 16
      { fmt with
        flags := { leftJustify := false, showSign := false, explicitBase := true,
                   fillZero := false, addSpace := false },
        precision := ptrBytes * 2, formatChar := 'x' }
      { bits := ptrBytes * 8, signed := false, val := (a : Int) }
      hw hp16 hsz hzf
    show printIntegral 16
      { fmt with
        flags := { leftJustify := false, showSign := false, explicitBase := true,
                   fillZero := false, addSpace := false },
        precision := ptrBytes * 2, formatChar := 'x' }
      { bits := ptrBytes * 8, signed := false, val := (a : Int) } = _
    rw [h, hsign]
    show Except.ok (_ ++ List.replicate
        ((if (ptrBytes * 2 : Nat) = WIDTH_EMPTY then 1 else ptrBytes * 2) -
          (digits64 16 (('x' : Char) == 'X') (a : Int)).length) '0' ++
        digits64 16 (('x' : Char) == 'X') (a : Int)) = _
    rw [hxX, hif16]
    simp
  · rw [List.length_append, List.length_replicate]
    omega

/-- C7 counterexample: the null pointer renders as sixteen zero digits with
no 0x prefix, so the prefix is not emitted for every pointer argument. -/
theorem C7_pointer_cex :
    format "%p" [.ptr 0] = .ok "0000000000000000" ∧
    'x' ∉ "0000000000000000".toList := by
  constructor
  · decide
  · decide

/-- C7 witness: the pointer rendering applied at the parsed p directive and
address 255. -/
theorem C7_pointer_render_witness :
    printPointer ⟨POSITION_NONE, ⟨false, false, false, false, false⟩, WIDTH_EMPTY,
        WIDTH_EMPTY, 'p'⟩ 255 = .ok ("0x00000000000000ff".toList) := by
  rw [(C7_pointer_render.1 ⟨POSITION_NONE, ⟨false, false, false, false, false⟩,
    WIDTH_EMPTY, WIDTH_EMPTY, 'p'⟩ 255 rfl (by norm_num)).1]
  decide

/-- C10: the s conversion on a non-boolean integral argument dispatches to
the base-10 integral renderer, not a text render. However its output matches
the d conversion only when the value is nonnegative, or when no width is
given and the precision is either absent or below 2^31: for a negative value
the renderers differ with an explicit width, and also with no width once an
explicit precision of 2^31 or more makes the int cast of the zero-fill count
negative, because the size accounting reserves the sign character only when
the conversion character is d, while the sign itself is emitted for every
negative signed value. -/
theorem C10_s_integral_dispatch :
    (∀ (fmt : FormatterItem) (m : MachInt), fmt.formatChar = 's' →
      dispatchConv fmt (.int m) = printIntegral 10 fmt m) ∧
    (∀ (fmt : FormatterItem) (m : MachInt), m.val.natAbs < 2 ^ 64 →
      (isNegative m = false ∨ (fmt.width = WIDTH_EMPTY ∧
        (fmt.precision = WIDTH_EMPTY ∨ fmt.precision < 2147483648))) →
      printIntegral 10 { fmt with formatChar := 's' } m =
        printIntegral 10 { fmt with formatChar := 'd' } m) := by
  constructor
  · rintro ⟨pos, fl, w, p, fc⟩ m h
    simp only at h
    subst h
    simp [dispatchConv, printByType]
  · rintro ⟨pos, fl, w, p, fc⟩ m hm hcase
    simp only at hcase
    have h2 : signOrBase ⟨pos, fl, w, p, 's'⟩ m = signOrBase ⟨pos, fl, w, p, 'd'⟩ m := by
      simp [signOrBase]
    rcases hcase with hneg | ⟨hwE, hprec⟩
    · have h1 : signOrBaseExtra ⟨pos, fl, w, p, 's'⟩ m =
          signOrBaseExtra ⟨pos, fl, w, p, 'd'⟩ m := by
        simp [signOrBaseExtra, hneg]
      show printIntegral 10 ⟨pos, fl, w, p, 's'⟩ m = printIntegral 10 ⟨pos, fl, w, p, 'd'⟩ m
      simp only [printIntegral]
      rw [h1, h2]
      have hsX2 : (('s' : Char) == 'X') = false := rfl
      have hdX2 : (('d' : Char) == 'X') = false := rfl
      rw [hsX2, hdX2]
    · show printIntegral 10 ⟨pos, fl, w, p, 's'⟩ m = printIntegral 10 ⟨pos, fl, w, p, 'd'⟩ m
      subst hwE
      have hlen : (digits64 10 false m.val).length ≤ 20 := digits64_len10 _ hm
      have hsX : (('s' : Char) == 'X') = false := by decide
      have hdX : (('d' : Char) == 'X') = false := by decide
      have hpA : p ≠ WIDTH_ARG := by
        rcases hprec with h | h
        · rw [h]; decide
        · unfold WIDTH_ARG U32
          omega
      have hzb : (if p = WIDTH_EMPTY then 1 else p) < 2147483648 := by
        rcases hprec with h | h
        · rw [if_pos h]; norm_num
        · rw [if_neg (by unfold WIDTH_EMPTY U32; omega)]
          exact h
      have hes : signOrBaseExtra ⟨pos, fl, WIDTH_EMPTY, p, 's'⟩ m ≤ 1 := by
        simp only [signOrBaseExtra]
        split_ifs <;> first | omega | simp_all
      have hed : signOrBaseExtra ⟨pos, fl, WIDTH_EMPTY, p, 'd'⟩ m ≤ 1 := by
        simp only [signOrBaseExtra]
        split_ifs <;> first | omega | simp_all
      have hss : (digits64 10 (('s' : Char) == 'X') m.val).length +
          signOrBaseExtra ⟨pos, fl, WIDTH_EMPTY, p, 's'⟩ m < 2147483648 := by
        rw [hsX]; omega
      have hsd : (digits64 10 (('d' : Char) == 'X') m.val).length +
          signOrBaseExtra ⟨pos, fl, WIDTH_EMPTY, p, 'd'⟩ m < 2147483648 := by
        rw [hdX]; omega
      rw [printIntegral_width_empty 10 ⟨pos, fl, WIDTH_EMPTY, p, 's'⟩ m rfl hpA hss hzb,
        printIntegral_width_empty 10 ⟨pos, fl, WIDTH_EMPTY, p, 'd'⟩ m rfl hpA hsd hzb,
        h2]
      rfl

/-- C10 counterexample: the s and d conversions over the same directive
disagree on the negative value -42 with width 5 (the s render emits one
more fill space, because the sign is not counted in its size), and they
also disagree with no width when the explicit precision 2147483650 drives
the int cast of the zero-fill count negative in the fill computation, so
both restrictions of the amended claim are forced. -/
theorem C10_s_vs_d_cex :
    format "%5s" [.int ⟨32, true, -42⟩] = .ok "   -42" ∧
    format "%5d" [.int ⟨32, true, -42⟩] = .ok "  -42" ∧
    format "%5s" [.int ⟨32, true, -42⟩] ≠ format "%5d" [.int ⟨32, true, -42⟩] ∧
    printIntegral 10 ⟨0, ⟨false, false, false, false, false⟩, WIDTH_EMPTY, 2147483650,
        's'⟩ ⟨32, true, -42⟩ ≠
      printIntegral 10 ⟨0, ⟨false, false, false, false, false⟩, WIDTH_EMPTY, 2147483650,
        'd'⟩ ⟨32, true, -42⟩ := by
  refine ⟨by decide, by decide, by decide, ?_⟩
  have hS : printIntegral 10 ⟨0, ⟨false, false, false, false, false⟩, WIDTH_EMPTY,
      2147483650, 's'⟩ ⟨32, true, -42⟩ =
      .ok (List.replicate 2147483646 ' ' ++ ['-'] ++ List.replicate 2147483648 '0' ++
        ['4', '2'] ++ []) := rfl
  have hD : printIntegral 10 ⟨0, ⟨false, false, false, false, false⟩, WIDTH_EMPTY,
      2147483650, 'd'⟩ ⟨32, true, -42⟩ =
      .ok (List.replicate 2147483645 ' ' ++ ['-'] ++ List.replicate 2147483648 '0' ++
        ['4', '2'] ++ []) := rfl
  have lS : (List.replicate 2147483646 ' ' ++ ['-'] ++ List.replicate 2147483648 '0' ++
      ['4', '2'] ++ ([] : List Char)).length = 4294967297 := by
    rw [List.length_append, List.length_append, List.length_append, List.length_append,
      List.length_replicate, List.length_replicate]
    rfl
  have lD : (List.replicate 2147483645 ' ' ++ ['-'] ++ List.replicate 2147483648 '0' ++
      ['4', '2'] ++ ([] : List Char)).length = 4294967296 := by
    rw [List.length_append, List.length_append, List.length_append, List.length_append,
      List.length_replicate, List.length_replicate]
    rfl
  intro h
  rw [hS, hD] at h
  injection h with h3
  have h4 := congrArg List.length h3
  rw [lS, lD] at h4
  exact absurd h4 (by decide)

/-- C10 witness: the dispatch fact and the nonnegative-value agreement
applied at concrete inputs. -/
theorem C10_s_integral_dispatch_witness :
    dispatchConv ⟨0, ⟨false, false, false, false, false⟩, 5, WIDTH_EMPTY, 's'⟩
        (.int ⟨32, true, 42⟩) =
      printIntegral 10 ⟨0, ⟨false, false, false, false, false⟩, 5, WIDTH_EMPTY, 's'⟩
        ⟨32, true, 42⟩ ∧
    printIntegral 10 ⟨0, ⟨false, false, false, false, false⟩, 5, WIDTH_EMPTY, 's'⟩
        ⟨32, true, 42⟩ =
      printIntegral 10 ⟨0, ⟨false, false, false, false, false⟩, 5, WIDTH_EMPTY, 'd'⟩
        ⟨32, true, 42⟩ :=
  ⟨C10_s_integral_dispatch.1 _ _ rfl,
    C10_s_integral_dispatch.2 ⟨0, ⟨false, false, false, false, false⟩, 5, WIDTH_EMPTY, 'x'⟩
      ⟨32, true, 42⟩ (by decide) (Or.inl (by decide))⟩

end Pnt
